import Mathlib

/-!
Shallow embedding of the NovaTrader paper-trading core
(repository `cryko98/Nova`): the SQLite-backed ledger
(`SimulationEngine.executeVirtualBuy` / `executeVirtualSell`), the decision
engine (`AutonomousEngine.analyzeAndTrade`), and the PnL monitor loops
(`server.ts` `updatePnL` and `PumpScanner.updatePnL`).

Modelling conventions:
- JavaScript numbers are modelled as `ℚ` (prices, SOL amounts, PnL
  percentages).  The SQLite `settings.virtual_balance` scalar is the
  `balance` field of `DBState`.
- The price oracle (`SimulationEngine.getCurrentPrice`) performs network
  calls; it is modelled as an explicit function parameter
  `oracle : String → ℚ` giving the resolved price per token address
  (`0` encodes "unknown", exactly as the source returns `0` on failure).
- `Math.random()` draws are explicit parameters (`confidence`, `diagRoll`),
  per the spec's injectable-scoring design note.
- `better-sqlite3`'s `db.transaction(...)` either commits all of its writes
  or, when a statement throws (e.g. a UNIQUE-constraint violation on
  `positions.token_address`), rolls all of them back.  A transaction is
  therefore modelled as a single pure state update, and a constraint
  violation as an `Except.error` result paired with the *unchanged* state.
- Log-message numeric formatting is abstracted by `ratStr`; only the
  presence, count and level of log rows matter to the properties below.
-/

inductive Side where
  | BUY
  | SELL
deriving Repr, DecidableEq

inductive PosStatus where
  | OPEN
  | CLOSED
deriving Repr, DecidableEq

/-- A row of the `trades` table (append-only). -/
structure Trade where
  token_address : String
  token_symbol : String
  side : Side
  amount_sol : ℚ
  amount_token : ℚ
  price_usd : ℚ
deriving Repr, DecidableEq

/-- A row of the `positions` table.  The schema declares
`token_address TEXT UNIQUE NOT NULL` — uniqueness over ALL rows, not just
OPEN ones. -/
structure Position where
  id : Nat
  token_address : String
  token_symbol : String
  entry_price : ℚ
  amount_token : ℚ
  status : PosStatus
  pnl_percent : ℚ
deriving Repr, DecidableEq

/-- A row of the `logs` table. -/
structure LogEntry where
  message : String
  level : String
deriving Repr, DecidableEq

/-- A row of the `opportunities` table (`token_address TEXT UNIQUE`). -/
structure Opportunity where
  token_address : String
  token_symbol : String
  liquidity_usd : ℚ
  price_usd : ℚ
  is_safe : Bool
  safety_score : Nat
deriving Repr, DecidableEq

/-- The persistent state of `trading_agent.db`: the virtual balance stored
in `settings`, plus the four tables.  `nextPosId` models the
AUTOINCREMENT counter of `positions.id`. -/
structure DBState where
  balance : ℚ
  trades : List Trade
  positions : List Position
  logs : List LogEntry
  opportunities : List Opportunity
  nextPosId : Nat
deriving Repr, DecidableEq

/-- `INSERT INTO logs (message, level) VALUES (?, ?)`. -/
def insertLog (st : DBState) (message level : String) : DBState :=
  { st with logs := st.logs ++ [⟨message, level⟩] }

/-- `INSERT OR REPLACE INTO opportunities ...` — last write wins on
`token_address`. -/
def upsertOpportunity (st : DBState) (o : Opportunity) : DBState :=
  { st with opportunities :=
      o :: st.opportunities.filter (fun x => decide (x.token_address ≠ o.token_address)) }

/-- Abstract decimal rendering of a JS number (used only inside log
messages, whose exact text no property depends on). -/
def ratStr (q : ℚ) : String :=
  toString q.num ++ "/" ++ toString q.den

/-- `SELECT * FROM positions WHERE token_address = ? AND status = 'OPEN'`
(first matching row, as `better-sqlite3`'s `.get`). -/
def findOpen (st : DBState) (addr : String) : Option Position :=
  st.positions.find? (fun p => decide (p.token_address = addr ∧ p.status = PosStatus.OPEN))

/-- Does any `positions` row (OPEN or CLOSED) hold this address?  This is
what the UNIQUE constraint on `positions.token_address` checks at INSERT. -/
def hasPositionRow (st : DBState) (addr : String) : Bool :=
  st.positions.any (fun p => decide (p.token_address = addr))

/-- `executeVirtualBuy`'s placeholder fill price `0.000000001`, substituted
when the oracle reports `0`. -/
def placeholderPrice : ℚ := 1 / 1000000000

/-- `const finalPrice = priceUsd || 0.000000001;` (the oracle never returns
a JS falsy value other than `0`). -/
def finalBuyPrice (oraclePrice : ℚ) : ℚ :=
  if oraclePrice = 0 then placeholderPrice else oraclePrice

/-- The BUY trade row inserted by `executeVirtualBuy`:
`amountToken = (amountSol * 150) / finalPrice` (fixed SOL↔USD rate 150). -/
def buyTrade (addr sym : String) (amountSol price : ℚ) : Trade :=
  ⟨addr, sym, Side.BUY, amountSol, amountSol * 150 / price, price⟩

def buyLogMsg (amountSol : ℚ) (sym : String) (price : ℚ) : String :=
  "[SIMULATION] Virtual Buy: " ++ ratStr amountSol ++ " SOL of " ++ sym
    ++ " at $" ++ ratStr price

/-- Result object of `executeVirtualBuy`: `{ success: true, priceUsd: finalPrice }`. -/
structure BuyResult where
  success : Bool
  priceUsd : ℚ
deriving Repr, DecidableEq

/-- `SimulationEngine.executeVirtualBuy(tokenAddress, tokenSymbol, amountSol)`.

The method itself performs no duplicate check; its transaction debits the
balance, inserts a BUY trade, inserts an OPEN position and appends a log.
When a `positions` row with the same `token_address` already exists (any
status), the position INSERT violates the UNIQUE constraint, the whole
transaction rolls back, and the call throws — modelled as the unchanged
state paired with `Except.error`. -/
def executeVirtualBuy (oracle : String → ℚ) (st : DBState)
    (addr sym : String) (amountSol : ℚ) : DBState × Except String BuyResult :=
  let price := finalBuyPrice (oracle addr)
  if hasPositionRow st addr then
    (st, Except.error "UNIQUE constraint failed: positions.token_address")
  else
    ({ st with
        balance := st.balance - amountSol
        trades := st.trades ++ [buyTrade addr sym amountSol price]
        positions := st.positions ++
          [⟨st.nextPosId, addr, sym, price, amountSol * 150 / price, PosStatus.OPEN, 0⟩]
        logs := st.logs ++ [⟨buyLogMsg amountSol sym price, "INFO"⟩]
        nextPosId := st.nextPosId + 1 },
      Except.ok ⟨true, price⟩)

/-- PnL percentage: `((current − entry) / entry) * 100`. -/
def pnlPercent (currentPrice entryPrice : ℚ) : ℚ :=
  ((currentPrice - entryPrice) / entryPrice) * 100

def sellLogMsg (sym : String) (price pnl : ℚ) : String :=
  "[SIMULATION] Virtual Sell: " ++ sym ++ " closed at $" ++ ratStr price
    ++ " (PnL: " ++ ratStr pnl ++ "%)"

/-- `UPDATE positions SET status = 'CLOSED', pnl_percent = ? WHERE id = ?`. -/
def closeById (positions : List Position) (pid : Nat) (pnl : ℚ) : List Position :=
  positions.map (fun p =>
    if p.id = pid then { p with status := PosStatus.CLOSED, pnl_percent := pnl } else p)

/-- `SimulationEngine.executeVirtualSell(tokenAddress, amountToken)`.

Resolves the current price, looks up the OPEN position; with none it
returns before the transaction (no write of any kind).  Otherwise it
credits the balance with `amountToken * priceUsd / 150`, inserts the SELL
trade, transitions the position to CLOSED with its final PnL, and logs. -/
def executeVirtualSell (oracle : String → ℚ) (st : DBState)
    (addr : String) (amountToken : ℚ) : DBState :=
  let priceUsd := oracle addr
  match findOpen st addr with
  | none => st
  | some position =>
    let pnl := pnlPercent priceUsd position.entry_price
    let solReturned := amountToken * priceUsd / 150
    { st with
        balance := st.balance + solReturned
        trades := st.trades ++
          [⟨addr, position.token_symbol, Side.SELL, solReturned, amountToken, priceUsd⟩]
        positions := closeById st.positions position.id pnl
        logs := st.logs ++ [⟨sellLogMsg position.token_symbol priceUsd pnl, "INFO"⟩] }

/-- A normalized token candidate (`TokenData` in `AutonomousEngine.ts`). -/
structure TokenData where
  address : String
  symbol : String
  name : String
  priceUsd : ℚ
  liquidityUsd : ℚ
  volume24h : ℚ
  mintDisabled : Bool
  lpBurnt : Bool
deriving Repr, DecidableEq

/-- Configured thresholds read from the environment by `analyzeAndTrade`:
`MIN_LIQUIDITY_USD` (default 10000), `MIN_VOLUME_24H` (default 50000),
`AUTO_BUY_THRESHOLD` (default 80), `PAPER_TRADING_MODE`. -/
structure Config where
  minLiquidity : ℚ
  minVolume : ℚ
  autoBuyThreshold : Nat
  paperTrading : Bool
deriving Repr, DecidableEq

inductive TradeAction where
  | SKIP
  | BUY
  | NONE
deriving Repr, DecidableEq

/-- The object returned by `analyzeAndTrade`
(`{action, reason?}` / `{action, confidence?}`). -/
structure Decision where
  action : TradeAction
  reason : Option String
  confidence : Option Nat
deriving Repr, DecidableEq

/-- Composite safety score: `50×(mint disabled) + 50×(LP burnt)`. -/
def safetyScore (t : TokenData) : Nat :=
  (if t.mintDisabled then 50 else 0) + (if t.lpBurnt then 50 else 0)

def unsafeReason : String := "Unsafe (LP not burnt or Mint enabled)"

def highConfMsg (confidence : Nat) (sym : String) : String :=
  "[PUMP.FUN] High confidence (" ++ toString confidence ++ "%) detected for "
    ++ sym ++ ". Executing Autonomous Buy..."

def successMsg (sym : String) (price : ℚ) : String :=
  "[SUCCESS] Pump.fun Position opened for " ++ sym ++ " at $" ++ ratStr price ++ "."

def warnMsg (sym : String) (confidence : Nat) : String :=
  "Autonomous Buy Triggered for " ++ sym ++ " (Confidence: " ++ toString confidence
    ++ "%), but Real Trading is disabled."

def debugMsg (sym : String) (confidence : Nat) : String :=
  "Analyzing " ++ sym ++ ": Confidence " ++ toString confidence
    ++ "% - Below threshold (85%)"

/-- `AutonomousEngine.analyzeAndTrade(token)`.

The two `Math.random()` draws are explicit parameters: `confidence` is the
sampled 81–100 confidence value, `diagRoll` is the 10%-probability outcome
of `Math.random() > 0.9` guarding the low-confidence DEBUG log.  A throw
from `executeVirtualBuy` propagates (there is no try/catch in the method);
the INFO log written before the buy transaction is NOT rolled back. -/
def analyzeAndTrade (cfg : Config) (oracle : String → ℚ) (confidence : Nat)
    (diagRoll : Bool) (st : DBState) (token : TokenData) :
    DBState × Except String Decision :=
  if token.liquidityUsd < cfg.minLiquidity then
    (st, Except.ok ⟨TradeAction.SKIP, some "Low Liquidity", none⟩)
  else if token.volume24h < cfg.minVolume then
    (st, Except.ok ⟨TradeAction.SKIP, some "Low Volume", none⟩)
  else if safetyScore token < 80 then
    (st, Except.ok ⟨TradeAction.SKIP, some unsafeReason, none⟩)
  else if cfg.autoBuyThreshold ≤ confidence then
    if cfg.paperTrading then
      if (findOpen st token.address).isSome then
        (st, Except.ok ⟨TradeAction.NONE, none, none⟩)
      else
        let st1 := insertLog st (highConfMsg confidence token.symbol) "INFO"
        match executeVirtualBuy oracle st1 token.address token.symbol (1 / 10) with
        | (st2, Except.error e) => (st2, Except.error e)
        | (st2, Except.ok r) =>
          (if r.success then insertLog st2 (successMsg token.symbol r.priceUsd) "SUCCESS"
           else st2,
           Except.ok ⟨TradeAction.BUY, none, some confidence⟩)
    else
      (insertLog st (warnMsg token.symbol confidence) "WARN",
       Except.ok ⟨TradeAction.NONE, none, none⟩)
  else
    (if diagRoll then insertLog st (debugMsg token.symbol confidence) "DEBUG" else st,
     Except.ok ⟨TradeAction.NONE, none, none⟩)

/-- The monitor's PnL refresh
(`UPDATE positions SET pnl_percent = ? WHERE id = ?`) — the spec's
`refreshPnl(positionId, ...)` operation. -/
def refreshPnl (st : DBState) (pid : Nat) (pnl : ℚ) : DBState :=
  { st with positions := st.positions.map (fun p =>
      if p.id = pid then { p with pnl_percent := pnl } else p) }

/-- The body of `server.ts`'s `updatePnL` for one OPEN position fetched at
the start of the cycle: resolve price; only if `currentPrice > 0` refresh
`pnl_percent` on the row (by id) and, when
`pnl <= -STOP_LOSS_PCT || pnl >= TAKE_PROFIT_PCT`, execute a virtual sell. -/
def updatePnLStep (oracle : String → ℚ) (sl tp : ℚ) (st : DBState)
    (pos : Position) : DBState :=
  let currentPrice := oracle pos.token_address
  if 0 < currentPrice then
    let pnl := pnlPercent currentPrice pos.entry_price
    let st1 := refreshPnl st pos.id pnl
    if pnl ≤ -sl ∨ tp ≤ pnl then
      executeVirtualSell oracle st1 pos.token_address pos.amount_token
    else st1
  else st

/-- `server.ts`'s full `updatePnL` cycle: iterate the list of OPEN
positions fetched once at the start. -/
def updatePnL (oracle : String → ℚ) (sl tp : ℚ) (st : DBState) : DBState :=
  (st.positions.filter (fun p => decide (p.status = PosStatus.OPEN))).foldl
    (updatePnLStep oracle sl tp) st

/-- JS property access `x.priceUsd` where `x` is a number: numbers have no
such property, so the access yields `undefined` (`none`). -/
def numberField (_q : ℚ) : Option ℚ := none

/-- JS `undefined > 0` evaluates to `false`; a number compares normally. -/
def jsGtZero : Option ℚ → Bool
  | some x => decide (0 < x)
  | none => false

/-- JS arithmetic on `undefined` yields `NaN`; the branch using it is
unreachable (see `pumpUpdatePnLStep`), so `NaN` is represented by `0`. -/
def jsVal : Option ℚ → ℚ
  | some x => x
  | none => 0

/-- The body of `PumpScanner.updatePnL` for one OPEN position.  The source
destructures `const { priceUsd, marketCap } = await
this.simulationEngine.getCurrentPrice(...)`, but `getCurrentPrice` is
declared to return a plain number — so `priceUsd` is `undefined`, the
`priceUsd > 0` guard is always false, and the refresh/auto-sell branch is
unreachable.  (Had it been reached, its UPDATE also names a `market_cap`
column absent from the `positions` schema.) -/
def pumpUpdatePnLStep (oracle : String → ℚ) (sl tp : ℚ) (st : DBState)
    (pos : Position) : DBState :=
  let priceUsd := numberField (oracle pos.token_address)
  if jsGtZero priceUsd then
    let pnl := pnlPercent (jsVal priceUsd) pos.entry_price
    let st1 := refreshPnl st pos.id pnl
    if pnl ≤ -sl ∨ tp ≤ pnl then
      executeVirtualSell oracle st1 pos.token_address pos.amount_token
    else st1
  else st

/-- The repertoire of operations that touch `trading_agent.db` in the
source: the two ledger transactions, the decision engine, one PnL-monitor
cycle, an opportunity upsert and a bare log insert (everything else in the
program only reads). -/
inductive Op where
  | opBuy (oracle : String → ℚ) (addr sym : String) (amountSol : ℚ)
  | opSell (oracle : String → ℚ) (addr : String) (amountToken : ℚ)
  | opAnalyze (cfg : Config) (oracle : String → ℚ) (confidence : Nat)
      (diagRoll : Bool) (token : TokenData)
  | opMonitor (oracle : String → ℚ) (sl tp : ℚ)
  | opUpsertOpportunity (o : Opportunity)
  | opLog (msg level : String)

def applyOp (st : DBState) : Op → DBState
  | Op.opBuy oracle a s amt => (executeVirtualBuy oracle st a s amt).1
  | Op.opSell oracle a amt => executeVirtualSell oracle st a amt
  | Op.opAnalyze cfg oracle c d t => (analyzeAndTrade cfg oracle c d st t).1
  | Op.opMonitor oracle sl tp => updatePnL oracle sl tp st
  | Op.opUpsertOpportunity o => upsertOpportunity st o
  | Op.opLog m l => insertLog st m l

/-- Signed SOL flow recorded by a batch of trades: SELL credits, BUY
debits. -/
def tradeDelta (ts : List Trade) : ℚ :=
  (ts.map (fun t => match t.side with
    | Side.SELL => t.amount_sol
    | Side.BUY => -t.amount_sol)).sum

/-- Accounting relation: reaching `st'` from `st` appended exactly the
trades `ts` and moved the balance by exactly their signed SOL flow —
the form in which "the balance is never mutated outside a buy/sell
transaction" is provable of every operation. -/
def Accounts (st st' : DBState) (ts : List Trade) : Prop :=
  st'.trades = st.trades ++ ts ∧ st'.balance = st.balance + tradeDelta ts

/-- `positions.token_address` is pairwise distinct (the UNIQUE
constraint). -/
def uniqueAddrs (st : DBState) : Prop :=
  st.positions.Pairwise (fun p q => p.token_address ≠ q.token_address)

/-- At most one OPEN position per token address. -/
def atMostOneOpen (st : DBState) : Prop :=
  ∀ p q, p ∈ st.positions → q ∈ st.positions →
    p.status = PosStatus.OPEN → q.status = PosStatus.OPEN →
    p.token_address = q.token_address → p = q

/-! Concrete fixtures used by witnesses and counterexamples. -/

/-- The default configuration: `MIN_LIQUIDITY_USD=10000`,
`MIN_VOLUME_24H=50000`, `AUTO_BUY_THRESHOLD=80`, paper trading on. -/
def cfgD : Config := ⟨10000, 50000, 80, true⟩

/-- Default thresholds but `AUTO_BUY_THRESHOLD=90`, inside the sampled
81–100 confidence range. -/
def cfg90 : Config := ⟨10000, 50000, 90, true⟩

def orZero : String → ℚ := fun _ => 0

def orOne : String → ℚ := fun _ => 1

def orTiny : String → ℚ := fun _ => 1 / 1000000000

def or08 : String → ℚ := fun _ => 4 / 5

def or11 : String → ℚ := fun _ => 11 / 10

/-- Fresh database: balance 10 SOL, all tables empty. -/
def st0 : DBState := ⟨10, [], [], [], [], 1⟩

/-- An OPEN position on token "TOK": entry price $1, 150 tokens. -/
def posP : Position := ⟨1, "TOK", "TOK", 1, 150, PosStatus.OPEN, 0⟩

def stP : DBState := ⟨10, [], [posP], [], [], 2⟩

/-- The same position after a close (status CLOSED). -/
def posC : Position := ⟨1, "TOK", "TOK", 1, 150, PosStatus.CLOSED, -20⟩

def stC : DBState := ⟨10, [], [posC], [], [], 2⟩

/-- Candidate failing the liquidity gate ($1000 < $10000) but passing
everything else. -/
def tokA : TokenData := ⟨"A", "AAA", "Token A", 1, 1000, 999999, true, true⟩

/-- Candidate passing liquidity but failing volume ($10 < $50000). -/
def tokB : TokenData := ⟨"B", "BBB", "Token B", 1, 20000, 10, true, true⟩

/-- Candidate passing liquidity and volume but with LP not burnt
(safety score 50 < 80). -/
def tokC : TokenData := ⟨"C", "CCC", "Token C", 1, 20000, 80000, true, false⟩

/-- Candidate passing every technical and safety gate. -/
def tokG : TokenData := ⟨"G", "GOOD", "Token G", 1, 20000, 80000, true, true⟩

/-- Gate-passing candidate whose address is "TOK" (the open position's). -/
def tokT : TokenData := ⟨"TOK", "TOK", "Token T", 1, 20000, 80000, true, true⟩

/-! Projection helper lemmas. -/

theorem insertLog_balance (st : DBState) (m l : String) :
    (insertLog st m l).balance = st.balance := rfl

theorem insertLog_trades (st : DBState) (m l : String) :
    (insertLog st m l).trades = st.trades := rfl

theorem insertLog_positions (st : DBState) (m l : String) :
    (insertLog st m l).positions = st.positions := rfl

theorem hasPositionRow_false_iff (st : DBState) (a : String) :
    hasPositionRow st a = false ↔ ∀ p ∈ st.positions, p.token_address ≠ a := by
  simp [hasPositionRow]

theorem hasPositionRow_true_of_mem {st : DBState} {a : String} {p : Position}
    (hp : p ∈ st.positions) (ha : p.token_address = a) :
    hasPositionRow st a = true := by
  simp only [hasPositionRow, List.any_eq_true, decide_eq_true_eq]
  exact ⟨p, hp, ha⟩

/-- **C1.** `analyzeAndTrade` applies its gates in a fixed short-circuit
order — liquidity, then volume, then safety (then confidence).  A
candidate with liquidity below the configured minimum yields
SKIP("Low Liquidity") for every volume, safety signal, confidence draw and
database state; one passing liquidity but below minimum volume yields
SKIP("Low Volume"); one with safety score `50×(mint disabled)+50×(LP
burnt) < 80` yields SKIP with the "Unsafe (...)" reason (a reason starting
with "Unsafe"), again leaving the state untouched. -/
theorem c1_gate_order (cfg : Config) (oracle : String → ℚ) (confidence : Nat)
    (diagRoll : Bool) (st : DBState) (token : TokenData) :
    (token.liquidityUsd < cfg.minLiquidity →
      analyzeAndTrade cfg oracle confidence diagRoll st token =
        (st, Except.ok ⟨TradeAction.SKIP, some "Low Liquidity", none⟩)) ∧
    (¬ token.liquidityUsd < cfg.minLiquidity → token.volume24h < cfg.minVolume →
      analyzeAndTrade cfg oracle confidence diagRoll st token =
        (st, Except.ok ⟨TradeAction.SKIP, some "Low Volume", none⟩)) ∧
    (¬ token.liquidityUsd < cfg.minLiquidity → ¬ token.volume24h < cfg.minVolume →
      safetyScore token < 80 →
      analyzeAndTrade cfg oracle confidence diagRoll st token =
        (st, Except.ok ⟨TradeAction.SKIP, some unsafeReason, none⟩) ∧
      ∃ rest, unsafeReason = "Unsafe" ++ rest) := by
  refine ⟨fun h1 => ?_, fun h1 h2 => ?_,
    fun h1 h2 h3 => ⟨?_, " (LP not burnt or Mint enabled)", by decide⟩⟩
  · simp [analyzeAndTrade, h1]
  · simp [analyzeAndTrade, h1, h2]
  · simp [analyzeAndTrade, h1, h2, h3]

/-- Witness for C1: the three gates observed on concrete candidates
(liquidity $1000; volume $10; LP not burnt), all with confidence 95. -/
theorem c1_gate_order_witness :
    analyzeAndTrade cfgD orZero 95 false st0 tokA =
      (st0, Except.ok ⟨TradeAction.SKIP, some "Low Liquidity", none⟩) ∧
    analyzeAndTrade cfgD orZero 95 false st0 tokB =
      (st0, Except.ok ⟨TradeAction.SKIP, some "Low Volume", none⟩) ∧
    analyzeAndTrade cfgD orZero 95 false st0 tokC =
      (st0, Except.ok ⟨TradeAction.SKIP, some unsafeReason, none⟩) :=
  ⟨(c1_gate_order cfgD orZero 95 false st0 tokA).1 (by norm_num [cfgD, tokA]),
   (c1_gate_order cfgD orZero 95 false st0 tokB).2.1
     (by norm_num [cfgD, tokB]) (by norm_num [cfgD, tokB]),
   ((c1_gate_order cfgD orZero 95 false st0 tokC).2.2
     (by norm_num [cfgD, tokC]) (by norm_num [cfgD, tokC]) (by decide)).1⟩

/-- **C4.** `executeVirtualSell` on a token address with no OPEN position
returns before its transaction: no trade, no balance change, no position
update, no log entry — the state is entirely unchanged. -/
theorem c4_sell_no_open_noop (oracle : String → ℚ) (st : DBState)
    (a : String) (amt : ℚ) (h : findOpen st a = none) :
    executeVirtualSell oracle st a amt = st := by
  simp [executeVirtualSell, h]

/-- Witness for C4: selling "TOK" while its only position row is CLOSED
changes nothing. -/
theorem c4_sell_no_open_noop_witness :
    executeVirtualSell or08 stC "TOK" 5 = stC :=
  c4_sell_no_open_noop or08 stC "TOK" 5 (by simp [findOpen, stC, posC, List.find?])

/-- **C9.** `positions.token_address` is UNIQUE over ALL rows.  If any
position row for the address exists — even a CLOSED one — the position
INSERT of `executeVirtualBuy` violates the constraint, the whole
transaction (balance debit, BUY trade, log) rolls back leaving the state
unchanged, and the call throws (`Except.error`), so a token whose position
was closed can never be bought again. -/
theorem c9_unique_position_row (oracle : String → ℚ) (st : DBState)
    (a s : String) (amt : ℚ) (p : Position)
    (hp : p ∈ st.positions) (ha : p.token_address = a) :
    executeVirtualBuy oracle st a s amt =
      (st, Except.error "UNIQUE constraint failed: positions.token_address") := by
  simp [executeVirtualBuy, hasPositionRow_true_of_mem hp ha]

/-- Witness for C9: re-buying "TOK" after its position was CLOSED throws
and leaves the state unchanged. -/
theorem c9_unique_position_row_witness :
    executeVirtualBuy orOne stC "TOK" "TOK" (1 / 10) =
      (stC, Except.error "UNIQUE constraint failed: positions.token_address") :=
  c9_unique_position_row orOne stC "TOK" "TOK" (1 / 10) posC
    (by simp [stC]) (by simp [posC])

/-- Rows of `closeById` carrying the targeted id are CLOSED with the
written PnL. -/
theorem closeById_mem {l : List Position} {pid : Nat} {pnl : ℚ} {p' : Position}
    (h : p' ∈ closeById l pid pnl) (hid : p'.id = pid) :
    p'.status = PosStatus.CLOSED ∧ p'.pnl_percent = pnl := by
  rcases List.mem_map.mp h with ⟨q, hq, hfq⟩
  by_cases hqid : q.id = pid
  · rw [← hfq]; simp [hqid]
  · exfalso
    apply hqid
    have hqp : q = p' := by rw [← hfq]; simp [hqid]
    rw [hqp]
    exact hid

/-- Rows of the monitor's pnl-refresh UPDATE carrying the targeted id hold
the freshly written PnL. -/
theorem refresh_mem {l : List Position} {pid : Nat} {pnl : ℚ} {p' : Position}
    (h : p' ∈ l.map (fun p => if p.id = pid then { p with pnl_percent := pnl } else p))
    (hid : p'.id = pid) : p'.pnl_percent = pnl := by
  rcases List.mem_map.mp h with ⟨q, hq, hfq⟩
  by_cases hqid : q.id = pid
  · rw [← hfq]; simp [hqid]
  · exfalso
    apply hqid
    have hqp : q = p' := by rw [← hfq]; simp [hqid]
    rw [hqp]
    exact hid

/-- Specialization of `refresh_mem` to `refreshPnl`. -/
theorem refreshPnl_mem {st : DBState} {pid : Nat} {pnl : ℚ} {p' : Position}
    (h : p' ∈ (refreshPnl st pid pnl).positions) (hid : p'.id = pid) :
    p'.pnl_percent = pnl :=
  refresh_mem h hid

/-- **C10.** `executeVirtualSell` does not apply the monitor's "zero price
means unknown, skip" rule: called while the oracle resolves the price as
0, it still closes the OPEN position, stores a final PnL of exactly −100%,
and credits the balance with 0 SOL (the SELL trade's `amount_sol` is 0). -/
theorem c10_sell_zero_price_closes (oracle : String → ℚ) (st : DBState)
    (a : String) (amt : ℚ) (pos : Position)
    (hz : oracle a = 0) (hfind : findOpen st a = some pos)
    (he : 0 < pos.entry_price) :
    (executeVirtualSell oracle st a amt).balance = st.balance ∧
    (∃ t, (executeVirtualSell oracle st a amt).trades = st.trades ++ [t] ∧
      t.side = Side.SELL ∧ t.token_address = a ∧ t.amount_sol = 0) ∧
    (∀ p' ∈ (executeVirtualSell oracle st a amt).positions, p'.id = pos.id →
      p'.status = PosStatus.CLOSED ∧ p'.pnl_percent = -100) := by
  have hpnl : pnlPercent (oracle a) pos.entry_price = -100 := by
    rw [hz]
    unfold pnlPercent
    rw [zero_sub, neg_div, div_self (ne_of_gt he)]
    norm_num
  have hsol : amt * oracle a / 150 = 0 := by rw [hz]; ring
  refine ⟨?_, ⟨⟨a, pos.token_symbol, Side.SELL, amt * oracle a / 150, amt, oracle a⟩,
      ?_, rfl, rfl, hsol⟩, ?_⟩
  · simp [executeVirtualSell, hfind, hsol]
  · simp [executeVirtualSell, hfind]
  · intro p' hp' hid
    rw [← hpnl]
    have hp'' : p' ∈ closeById st.positions pos.id (pnlPercent (oracle a) pos.entry_price) := by
      simpa [executeVirtualSell, hfind] using hp'
    exact closeById_mem hp'' hid

/-- Witness for C10: closing the OPEN "TOK" position (entry $1) with the
oracle reporting 0 leaves the balance at 10 and records PnL −100%. -/
theorem c10_sell_zero_price_closes_witness :
    (executeVirtualSell orZero stP "TOK" 150).balance = stP.balance ∧
    (∃ t, (executeVirtualSell orZero stP "TOK" 150).trades = stP.trades ++ [t] ∧
      t.side = Side.SELL ∧ t.token_address = "TOK" ∧ t.amount_sol = 0) ∧
    (∀ p' ∈ (executeVirtualSell orZero stP "TOK" 150).positions, p'.id = posP.id →
      p'.status = PosStatus.CLOSED ∧ p'.pnl_percent = -100) :=
  c10_sell_zero_price_closes orZero stP "TOK" 150 posP rfl
    (by simp [findOpen, stP, posP, List.find?]) (by norm_num [posP])

/-- **C8 counterexample.** The claim says a degraded (placeholder-price)
fill is "flagged to the caller in its returned result".  It is not: a buy
whose oracle price is 0 (degraded) and a buy whose oracle genuinely
reports the placeholder price 10⁻⁹ produce literally identical results and
states — the returned `{success, priceUsd}` carries no mark that could
distinguish the degraded fill. -/
theorem c8_no_degraded_flag_counterexample :
    executeVirtualBuy orZero st0 "A" "AAA" (1 / 10) =
      executeVirtualBuy orTiny st0 "A" "AAA" (1 / 10) := by
  norm_num [executeVirtualBuy, orZero, orTiny, finalBuyPrice, placeholderPrice,
    hasPositionRow, st0]

/-- **C8 amended.** When the oracle returns 0, `executeVirtualBuy` does not
fail: it substitutes the minimal non-zero placeholder price 10⁻⁹ as the
fill price and completes the buy, returning `{success: true, priceUsd:
10⁻⁹}`; the degraded fill is signalled only by the placeholder price value
itself (and a console warning), not by any flag in the returned result. -/
theorem c8_placeholder_fill (oracle : String → ℚ) (st : DBState)
    (a s : String) (amt : ℚ) (hz : oracle a = 0)
    (hrow : hasPositionRow st a = false) :
    (executeVirtualBuy oracle st a s amt).2 = Except.ok ⟨true, placeholderPrice⟩ ∧
    (executeVirtualBuy oracle st a s amt).1.trades =
      st.trades ++ [buyTrade a s amt placeholderPrice] ∧
    (executeVirtualBuy oracle st a s amt).1.balance = st.balance - amt ∧
    placeholderPrice ≠ 0 ∧ 0 < placeholderPrice := by
  have hfinal : finalBuyPrice (oracle a) = placeholderPrice := by
    simp [finalBuyPrice, hz]
  refine ⟨?_, ?_, ?_, by norm_num [placeholderPrice], by norm_num [placeholderPrice]⟩ <;>
    simp [executeVirtualBuy, hrow, hfinal]

/-- Witness for C8 amended: buying "A" on a fresh database with an oracle
that cannot price it fills at 10⁻⁹ and succeeds. -/
theorem c8_placeholder_fill_witness :
    (executeVirtualBuy orZero st0 "A" "AAA" (1 / 10)).2 =
      Except.ok ⟨true, placeholderPrice⟩ ∧
    (executeVirtualBuy orZero st0 "A" "AAA" (1 / 10)).1.trades =
      st0.trades ++ [buyTrade "A" "AAA" (1 / 10) placeholderPrice] ∧
    (executeVirtualBuy orZero st0 "A" "AAA" (1 / 10)).1.balance = st0.balance - 1 / 10 ∧
    placeholderPrice ≠ 0 ∧ 0 < placeholderPrice :=
  c8_placeholder_fill orZero st0 "A" "AAA" (1 / 10) rfl (by simp [hasPositionRow, st0])

/-- **C7 counterexample.** `analyzeAndTrade` is neither deterministic nor
side-effect-free beyond diagnostics: with `AUTO_BUY_THRESHOLD=90` the same
gate-passing candidate yields NONE under sampled confidence 85 but BUY
under 95, and the BUY run debits the persistent balance (and writes
trade/position rows), contradicting "same action and reason" and "mutates
no persistent state other than diagnostic log entries". -/
theorem c7_nondeterminism_counterexample :
    (analyzeAndTrade cfg90 orOne 85 false st0 tokG).2 ≠
      (analyzeAndTrade cfg90 orOne 95 false st0 tokG).2 ∧
    (analyzeAndTrade cfg90 orOne 95 false st0 tokG).1.balance ≠ st0.balance := by
  constructor
  · norm_num [analyzeAndTrade, cfg90, tokG, st0, safetyScore, findOpen,
      executeVirtualBuy, hasPositionRow, insertLog, orOne, finalBuyPrice]
    intro h
    exact TradeAction.noConfusion h
  · norm_num [analyzeAndTrade, cfg90, tokG, st0, safetyScore, findOpen,
      executeVirtualBuy, hasPositionRow, insertLog, orOne, finalBuyPrice]

/-- **C7 amended.** The deterministic, side-effect-free portion of
`analyzeAndTrade` is its gate cascade: whenever a technical or safety gate
fails, the result is the same SKIP action and reason for every sampled
confidence and diagnostic roll, and the state is completely unchanged.
(When all gates pass, the action depends on the sampled confidence, and a
BUY mutates balance, trades and positions.) -/
theorem c7_gate_determinism (cfg : Config) (oracle : String → ℚ)
    (c₁ c₂ : Nat) (d₁ d₂ : Bool) (st : DBState) (token : TokenData)
    (h : token.liquidityUsd < cfg.minLiquidity ∨ token.volume24h < cfg.minVolume ∨
      safetyScore token < 80) :
    analyzeAndTrade cfg oracle c₁ d₁ st token =
      analyzeAndTrade cfg oracle c₂ d₂ st token ∧
    (analyzeAndTrade cfg oracle c₁ d₁ st token).1 = st ∧
    (∃ r, (analyzeAndTrade cfg oracle c₁ d₁ st token).2 = Except.ok r ∧
      r.action = TradeAction.SKIP) := by
  by_cases h1 : token.liquidityUsd < cfg.minLiquidity
  · simp [analyzeAndTrade, h1]
  · by_cases h2 : token.volume24h < cfg.minVolume
    · simp [analyzeAndTrade, h1, h2]
    · have h3 : safetyScore token < 80 := by tauto
      simp [analyzeAndTrade, h1, h2, h3]

/-- Witness for C7 amended: the liquidity-failing candidate gets the same
SKIP under confidence 85 and 95, with the state untouched. -/
theorem c7_gate_determinism_witness :
    analyzeAndTrade cfgD orOne 85 false st0 tokA =
      analyzeAndTrade cfgD orOne 95 true st0 tokA ∧
    (analyzeAndTrade cfgD orOne 85 false st0 tokA).1 = st0 ∧
    (∃ r, (analyzeAndTrade cfgD orOne 85 false st0 tokA).2 = Except.ok r ∧
      r.action = TradeAction.SKIP) :=
  c7_gate_determinism cfgD orOne 85 95 false true st0 tokA
    (Or.inl (by norm_num [cfgD, tokA]))

/-- **C6.** Stored PnL is always exactly `(current − entry) / entry × 100`,
recomputed fresh from the entry price and the freshly resolved price:
(1) after a monitor refresh (`server.ts` `updatePnL`) the row carries the
formula's value; (2) the final PnL stored by a close
(`executeVirtualSell`) is the same formula at the close-time price;
(3) the refresh is independent of the previously stored `pnl_percent` —
it is never accumulated from it. -/
theorem c6_pnl_formula :
    (∀ (oracle : String → ℚ) (sl tp : ℚ) (st : DBState) (pos : Position),
      0 < oracle pos.token_address → 0 < pos.entry_price →
      ¬ (pnlPercent (oracle pos.token_address) pos.entry_price ≤ -sl ∨
         tp ≤ pnlPercent (oracle pos.token_address) pos.entry_price) →
      ∀ p' ∈ (updatePnLStep oracle sl tp st pos).positions, p'.id = pos.id →
        p'.pnl_percent =
          (oracle pos.token_address - pos.entry_price) / pos.entry_price * 100) ∧
    (∀ (oracle : String → ℚ) (st : DBState) (a : String) (amt : ℚ) (pos : Position),
      findOpen st a = some pos →
      ∀ p' ∈ (executeVirtualSell oracle st a amt).positions, p'.id = pos.id →
        p'.pnl_percent = (oracle a - pos.entry_price) / pos.entry_price * 100 ∧
        p'.status = PosStatus.CLOSED) ∧
    (∀ (oracle : String → ℚ) (sl tp : ℚ) (st : DBState) (pos : Position) (x : ℚ),
      updatePnLStep oracle sl tp st { pos with pnl_percent := x } =
        updatePnLStep oracle sl tp st pos) := by
  refine ⟨?_, ?_, ?_⟩
  · intro oracle sl tp st pos hc he hnc p' hp' hid
    have hmem : p' ∈ (refreshPnl st pos.id
        (pnlPercent (oracle pos.token_address) pos.entry_price)).positions := by
      simpa [updatePnLStep, hc, hnc] using hp'
    simpa [pnlPercent] using refreshPnl_mem hmem hid
  · intro oracle st a amt pos hfind p' hp' hid
    have hp'' : p' ∈ closeById st.positions pos.id
        (pnlPercent (oracle a) pos.entry_price) := by
      simpa [executeVirtualSell, hfind] using hp'
    have h := closeById_mem hp'' hid
    exact ⟨by simpa [pnlPercent] using h.2, h.1⟩
  · intro oracle sl tp st pos x
    rfl

/-- Witness for C6: entry $1, observed price $1.10, stop-loss 15,
take-profit 30 — the monitor stores exactly `(1.10 − 1)/1 × 100 = +10` and
keeps the position open. -/
theorem c6_pnl_formula_witness :
    ({ posP with pnl_percent := 10 } : Position).pnl_percent =
      (or11 posP.token_address - posP.entry_price) / posP.entry_price * 100 :=
  (c6_pnl_formula).1 or11 15 30 stP posP
    (by norm_num [or11, posP]) (by norm_num [posP])
    (by norm_num [pnlPercent, or11, posP])
    { posP with pnl_percent := 10 }
    (by simp [updatePnLStep, refreshPnl, pnlPercent, stP, posP, or11]; norm_num) rfl

/-- **C2 (code bug).** On the failing input — OPEN position at entry $1.00
with the oracle resolving $0.80 (−20%), stop-loss 15, take-profit 30 —
`PumpScanner.updatePnL` does nothing (destructuring `{priceUsd}` from the
engine's numeric `getCurrentPrice` yields `undefined`, so its `> 0` guard
never passes): no refresh, no close.  The same input through `server.ts`'s
`updatePnL` shows the claimed intent: PnL refreshed/stored as −20%, the
position CLOSED, one SELL trade of 0.8 SOL recorded, balance credited to
10.8. -/
theorem c2_pump_monitor_divergence :
    pumpUpdatePnLStep or08 15 30 stP posP = stP ∧
    (updatePnLStep or08 15 30 stP posP).positions.map
      (fun p => (p.status, p.pnl_percent)) = [(PosStatus.CLOSED, -20)] ∧
    (updatePnLStep or08 15 30 stP posP).trades.map
      (fun t => (t.side, t.amount_sol)) = [(Side.SELL, 4 / 5)] ∧
    (updatePnLStep or08 15 30 stP posP).balance = 10 + 4 / 5 := by
  refine ⟨?_, ?_, ?_, ?_⟩
  · simp [pumpUpdatePnLStep, numberField, jsGtZero]
  · simp [updatePnLStep, refreshPnl, executeVirtualSell, findOpen, closeById,
      pnlPercent, or08, stP, posP, List.find?]
    norm_num
  · simp [updatePnLStep, refreshPnl, executeVirtualSell, findOpen, closeById,
      pnlPercent, or08, stP, posP, List.find?]
    norm_num
  · simp [updatePnLStep, refreshPnl, executeVirtualSell, findOpen, closeById,
      pnlPercent, or08, stP, posP, List.find?]
    norm_num

theorem tradeDelta_nil : tradeDelta [] = 0 := rfl

theorem tradeDelta_append (a b : List Trade) :
    tradeDelta (a ++ b) = tradeDelta a + tradeDelta b := by
  simp [tradeDelta]

theorem Accounts.rfl (st : DBState) : Accounts st st [] := by
  constructor <;> simp [tradeDelta]

theorem Accounts.trans {st1 st2 st3 : DBState} {ts1 ts2 : List Trade}
    (h1 : Accounts st1 st2 ts1) (h2 : Accounts st2 st3 ts2) :
    Accounts st1 st3 (ts1 ++ ts2) := by
  obtain ⟨ht1, hb1⟩ := h1
  obtain ⟨ht2, hb2⟩ := h2
  constructor
  · rw [ht2, ht1, List.append_assoc]
  · rw [hb2, hb1, tradeDelta_append, add_assoc]

theorem insertLog_accounts (st : DBState) (m l : String) :
    Accounts st (insertLog st m l) [] := by
  constructor <;> simp [insertLog, tradeDelta]

theorem upsertOpportunity_accounts (st : DBState) (o : Opportunity) :
    Accounts st (upsertOpportunity st o) [] := by
  constructor <;> simp [upsertOpportunity, tradeDelta]

theorem refreshPnl_accounts (st : DBState) (pid : Nat) (pnl : ℚ) :
    Accounts st (refreshPnl st pid pnl) [] := by
  constructor <;> simp [refreshPnl, tradeDelta]

theorem buy_accounts (oracle : String → ℚ) (st : DBState) (a s : String) (amt : ℚ) :
    ∃ ts, Accounts st ((executeVirtualBuy oracle st a s amt).1) ts := by
  by_cases h : hasPositionRow st a = true
  · exact ⟨[], by simp [executeVirtualBuy, h]; exact Accounts.rfl st⟩
  · refine ⟨[buyTrade a s amt (finalBuyPrice (oracle a))], ?_, ?_⟩ <;>
      simp [executeVirtualBuy, h, tradeDelta, buyTrade]
    ring

theorem sell_accounts (oracle : String → ℚ) (st : DBState) (a : String) (amt : ℚ) :
    ∃ ts, Accounts st (executeVirtualSell oracle st a amt) ts := by
  cases hf : findOpen st a with
  | none => exact ⟨[], by constructor <;> simp [executeVirtualSell, hf, tradeDelta]⟩
  | some pos =>
    refine ⟨[⟨a, pos.token_symbol, Side.SELL, amt * oracle a / 150, amt, oracle a⟩], ?_, ?_⟩ <;>
      simp [executeVirtualSell, hf, tradeDelta]

theorem buy_after_log_accounts (oracle : String → ℚ) (st : DBState)
    (m a s : String) (amt : ℚ) :
    ∃ ts, Accounts st ((executeVirtualBuy oracle (insertLog st m "INFO") a s amt).1) ts := by
  obtain ⟨ts, hts⟩ := buy_accounts oracle (insertLog st m "INFO") a s amt
  exact ⟨[] ++ ts, (insertLog_accounts st m "INFO").trans hts⟩

theorem analyze_accounts (cfg : Config) (oracle : String → ℚ) (c : Nat) (d : Bool)
    (st : DBState) (token : TokenData) :
    ∃ ts, Accounts st ((analyzeAndTrade cfg oracle c d st token).1) ts := by
  unfold analyzeAndTrade
  by_cases h1 : token.liquidityUsd < cfg.minLiquidity
  · exact ⟨[], by simp only [h1, if_true]; exact Accounts.rfl st⟩
  by_cases h2 : token.volume24h < cfg.minVolume
  · exact ⟨[], by simp only [h1, h2, if_true, if_false]; exact Accounts.rfl st⟩
  by_cases h3 : safetyScore token < 80
  · exact ⟨[], by simp only [h1, h2, h3, if_true, if_false]; exact Accounts.rfl st⟩
  by_cases h4 : cfg.autoBuyThreshold ≤ c
  · by_cases h5 : cfg.paperTrading = true
    · by_cases h6 : (findOpen st token.address).isSome = true
      · exact ⟨[], by simp only [h1, h2, h3, h4, h5, h6, if_true, if_false]; exact Accounts.rfl st⟩
      · simp only [h1, h2, h3, h4, h5, h6, if_true, if_false]
        obtain ⟨ts, hts⟩ :=
          buy_after_log_accounts oracle st (highConfMsg c token.symbol)
            token.address token.symbol (1 / 10)
        cases hbuy : executeVirtualBuy oracle
            (insertLog st (highConfMsg c token.symbol) "INFO")
            token.address token.symbol (1 / 10) with
        | mk st2 res =>
          rw [hbuy] at hts
          cases res with
          | error e => exact ⟨ts, by simp only [hbuy]; exact hts⟩
          | ok r =>
            by_cases hs : r.success = true
            · exact ⟨ts ++ [],
                by simp only [hbuy, hs, if_true]
                   exact hts.trans (insertLog_accounts st2 (successMsg token.symbol r.priceUsd) "SUCCESS")⟩
            · exact ⟨ts, by simp only [hbuy, hs, if_false]; exact hts⟩
    · exact ⟨[], by
        simp only [h1, h2, h3, h4, h5, if_true, if_false]
        exact insertLog_accounts st (warnMsg token.symbol c) "WARN"⟩
  · by_cases hd : d = true
    · exact ⟨[], by
        simp only [h1, h2, h3, h4, hd, if_true, if_false]
        exact insertLog_accounts st (debugMsg token.symbol c) "DEBUG"⟩
    · exact ⟨[], by simp only [h1, h2, h3, h4, hd, if_true, if_false]; exact Accounts.rfl st⟩

theorem step_accounts (oracle : String → ℚ) (sl tp : ℚ) (st : DBState) (pos : Position) :
    ∃ ts, Accounts st (updatePnLStep oracle sl tp st pos) ts := by
  simp only [updatePnLStep]
  by_cases hc : 0 < oracle pos.token_address
  · simp only [hc, if_true]
    by_cases hcross : pnlPercent (oracle pos.token_address) pos.entry_price ≤ -sl ∨
        tp ≤ pnlPercent (oracle pos.token_address) pos.entry_price
    · simp only [hcross, if_true]
      obtain ⟨ts, hts⟩ := sell_accounts oracle
        (refreshPnl st pos.id (pnlPercent (oracle pos.token_address) pos.entry_price))
        pos.token_address pos.amount_token
      exact ⟨[] ++ ts,
        (refreshPnl_accounts st pos.id
          (pnlPercent (oracle pos.token_address) pos.entry_price)).trans hts⟩
    · exact ⟨[], by
        simp only [hcross, if_false]
        exact refreshPnl_accounts st pos.id
          (pnlPercent (oracle pos.token_address) pos.entry_price)⟩
  · exact ⟨[], by simp only [hc, if_false]; exact Accounts.rfl st⟩

theorem foldl_accounts (step : DBState → Position → DBState)
    (hstep : ∀ st pos, ∃ ts, Accounts st (step st pos) ts) :
    ∀ (l : List Position) (st : DBState), ∃ ts, Accounts st (l.foldl step st) ts := by
  intro l
  induction l with
  | nil => exact fun st => ⟨[], Accounts.rfl st⟩
  | cons p tl ih =>
    intro st
    obtain ⟨ts1, h1⟩ := hstep st p
    obtain ⟨ts2, h2⟩ := ih (step st p)
    exact ⟨ts1 ++ ts2, h1.trans h2⟩

theorem applyOp_accounts (op : Op) (st : DBState) :
    ∃ ts, Accounts st (applyOp st op) ts := by
  cases op with
  | opBuy oracle a s amt => exact buy_accounts oracle st a s amt
  | opSell oracle a amt => exact sell_accounts oracle st a amt
  | opAnalyze cfg oracle c d t => exact analyze_accounts cfg oracle c d st t
  | opMonitor oracle sl tp =>
    exact foldl_accounts (updatePnLStep oracle sl tp) (step_accounts oracle sl tp) _ st
  | opUpsertOpportunity o => exact ⟨[], upsertOpportunity_accounts st o⟩
  | opLog m l => exact ⟨[], insertLog_accounts st m l⟩

/-- **C3.** Ledger atomicity and exact accounting: (1) a successful
`executeVirtualBuy` transaction debits the balance by exactly the SOL
amount spent and inserts exactly one BUY trade plus one OPEN position (and
one log row); (2) an `executeVirtualSell` that finds an OPEN position
credits the balance by exactly the inserted SELL trade's SOL amount, with
matching token address; (3) across the program's whole operation
repertoire (`Op`), every state change appends some list of trades and
moves the balance by exactly their signed SOL flow — the balance is never
mutated outside the buy/sell trade-recording transactions. -/
theorem c3_ledger_atomic_accounting :
    (∀ (oracle : String → ℚ) (st st' : DBState) (a s : String) (amt : ℚ)
        (r : BuyResult),
      executeVirtualBuy oracle st a s amt = (st', Except.ok r) →
      ∃ t p, t.side = Side.BUY ∧ t.token_address = a ∧ t.amount_sol = amt ∧
        st'.trades = st.trades ++ [t] ∧ st'.balance = st.balance - amt ∧
        p.status = PosStatus.OPEN ∧ p.token_address = a ∧
        st'.positions = st.positions ++ [p] ∧
        st'.logs.length = st.logs.length + 1) ∧
    (∀ (oracle : String → ℚ) (st : DBState) (a : String) (amt : ℚ) (pos : Position),
      findOpen st a = some pos →
      ∃ t, t.side = Side.SELL ∧ t.token_address = a ∧
        (executeVirtualSell oracle st a amt).trades = st.trades ++ [t] ∧
        (executeVirtualSell oracle st a amt).balance = st.balance + t.amount_sol) ∧
    (∀ (op : Op) (st : DBState), ∃ ts,
      (applyOp st op).trades = st.trades ++ ts ∧
      (applyOp st op).balance = st.balance + tradeDelta ts) := by
  refine ⟨?_, ?_, ?_⟩
  · intro oracle st st' a s amt r heq
    by_cases h : hasPositionRow st a = true
    · simp [executeVirtualBuy, h] at heq
    · simp only [executeVirtualBuy, h, Bool.false_eq_true, if_false,
        Prod.mk.injEq] at heq
      obtain ⟨hst, hr⟩ := heq
      subst hst
      exact ⟨buyTrade a s amt (finalBuyPrice (oracle a)),
        ⟨st.nextPosId, a, s, finalBuyPrice (oracle a),
          amt * 150 / finalBuyPrice (oracle a), PosStatus.OPEN, 0⟩,
        rfl, rfl, rfl, rfl, rfl, rfl, rfl, rfl, by simp⟩
  · intro oracle st a amt pos hfind
    refine ⟨⟨a, pos.token_symbol, Side.SELL, amt * oracle a / 150, amt, oracle a⟩,
      rfl, rfl, ?_, ?_⟩ <;> simp [executeVirtualSell, hfind]
  · intro op st
    obtain ⟨ts, hts⟩ := applyOp_accounts op st
    exact ⟨ts, hts.1, hts.2⟩

/-- Witness for C3: a concrete successful buy of 0.1 SOL of "A" on the
fresh database debits the balance to 9.9 and creates exactly one trade and
one position. -/
theorem c3_ledger_atomic_accounting_witness :
    (executeVirtualBuy orOne st0 "A" "AAA" (1 / 10)).1.balance = 10 - 1 / 10 ∧
    (executeVirtualBuy orOne st0 "A" "AAA" (1 / 10)).1.trades.length = 1 ∧
    (executeVirtualBuy orOne st0 "A" "AAA" (1 / 10)).1.positions.length = 1 := by
  obtain ⟨t, p, hside, haddr, hamt, htr, hbal, hstat, hpaddr, hpos, hlog⟩ :=
    c3_ledger_atomic_accounting.1 orOne st0
      ((executeVirtualBuy orOne st0 "A" "AAA" (1 / 10)).1) "A" "AAA" (1 / 10)
      ⟨true, 1⟩
      (by norm_num [executeVirtualBuy, hasPositionRow, st0, orOne, finalBuyPrice])
  refine ⟨?_, ?_, ?_⟩
  · rw [hbal]; norm_num [st0]
  · rw [htr]; simp [st0]
  · rw [hpos]; simp [st0]

theorem pairwise_addr_map {l : List Position} (f : Position → Position)
    (hf : ∀ p, (f p).token_address = p.token_address)
    (h : l.Pairwise (fun p q => p.token_address ≠ q.token_address)) :
    (l.map f).Pairwise (fun p q => p.token_address ≠ q.token_address) :=
  h.map f (fun a b hab => by rw [hf a, hf b]; exact hab)

theorem uniqueAddrs_buy (oracle : String → ℚ) (st : DBState) (a s : String)
    (amt : ℚ) (h : uniqueAddrs st) :
    uniqueAddrs ((executeVirtualBuy oracle st a s amt).1) := by
  by_cases hrow : hasPositionRow st a = true
  · simpa [executeVirtualBuy, hrow] using h
  · have hall : ∀ p ∈ st.positions, p.token_address ≠ a := by
      simpa [hasPositionRow] using hrow
    unfold uniqueAddrs at h ⊢
    simp only [executeVirtualBuy, hrow, Bool.false_eq_true, if_false]
    rw [List.pairwise_append]
    refine ⟨h, by simp, ?_⟩
    intro p hp q hq
    rw [List.mem_singleton] at hq
    subst hq
    simpa using hall p hp

theorem uniqueAddrs_closeById {l : List Position} (pid : Nat) (pnl : ℚ)
    (h : l.Pairwise (fun p q => p.token_address ≠ q.token_address)) :
    (closeById l pid pnl).Pairwise (fun p q => p.token_address ≠ q.token_address) := by
  unfold closeById
  refine pairwise_addr_map _ ?_ h
  intro p
  split <;> rfl

theorem uniqueAddrs_sell (oracle : String → ℚ) (st : DBState) (a : String)
    (amt : ℚ) (h : uniqueAddrs st) :
    uniqueAddrs (executeVirtualSell oracle st a amt) := by
  cases hf : findOpen st a with
  | none => simpa [executeVirtualSell, hf] using h
  | some pos =>
    unfold uniqueAddrs at h ⊢
    simp only [executeVirtualSell, hf]
    exact uniqueAddrs_closeById pos.id _ h

theorem uniqueAddrs_refreshPnl (st : DBState) (pid : Nat) (pnl : ℚ)
    (h : uniqueAddrs st) : uniqueAddrs (refreshPnl st pid pnl) := by
  unfold uniqueAddrs at h ⊢
  unfold refreshPnl
  refine pairwise_addr_map _ ?_ h
  intro p
  split <;> rfl

theorem uniqueAddrs_step (oracle : String → ℚ) (sl tp : ℚ) (st : DBState)
    (pos : Position) (h : uniqueAddrs st) :
    uniqueAddrs (updatePnLStep oracle sl tp st pos) := by
  simp only [updatePnLStep]
  by_cases hc : 0 < oracle pos.token_address
  · simp only [hc, if_true]
    by_cases hcross : pnlPercent (oracle pos.token_address) pos.entry_price ≤ -sl ∨
        tp ≤ pnlPercent (oracle pos.token_address) pos.entry_price
    · simp only [hcross, if_true]
      exact uniqueAddrs_sell _ _ _ _ (uniqueAddrs_refreshPnl st pos.id _ h)
    · simp only [hcross, if_false]
      exact uniqueAddrs_refreshPnl st pos.id _ h
  · simpa [hc] using h

theorem uniqueAddrs_foldl (step : DBState → Position → DBState)
    (hstep : ∀ st pos, uniqueAddrs st → uniqueAddrs (step st pos)) :
    ∀ (l : List Position) (st : DBState), uniqueAddrs st →
      uniqueAddrs (l.foldl step st) := by
  intro l
  induction l with
  | nil => exact fun st h => h
  | cons p tl ih => exact fun st h => ih (step st p) (hstep st p h)

/-- Any state predicate preserved by log inserts and by the buy
transaction is preserved by the state component of `analyzeAndTrade`. -/
theorem analyze_fst_preserves (P : DBState → Prop)
    (hlog : ∀ st m l, P st → P (insertLog st m l))
    (hbuy : ∀ (oracle : String → ℚ) st a s amt,
      P st → P ((executeVirtualBuy oracle st a s amt).1))
    (cfg : Config) (oracle : String → ℚ) (c : Nat) (d : Bool) (st : DBState)
    (token : TokenData) (h : P st) :
    P ((analyzeAndTrade cfg oracle c d st token).1) := by
  unfold analyzeAndTrade
  by_cases h1 : token.liquidityUsd < cfg.minLiquidity
  · simpa [h1] using h
  by_cases h2 : token.volume24h < cfg.minVolume
  · simpa [h1, h2] using h
  by_cases h3 : safetyScore token < 80
  · simpa [h1, h2, h3] using h
  by_cases h4 : cfg.autoBuyThreshold ≤ c
  · by_cases h5 : cfg.paperTrading = true
    · by_cases h6 : (findOpen st token.address).isSome = true
      · simpa [h1, h2, h3, h4, h5, h6] using h
      · simp only [h1, h2, h3, h4, h5, h6, if_true, if_false]
        have hp1 : P ((executeVirtualBuy oracle
            (insertLog st (highConfMsg c token.symbol) "INFO")
            token.address token.symbol (1 / 10)).1) :=
          hbuy oracle _ _ _ _ (hlog st _ "INFO" h)
        cases hbuyeq : executeVirtualBuy oracle
            (insertLog st (highConfMsg c token.symbol) "INFO")
            token.address token.symbol (1 / 10) with
        | mk st2 res =>
          rw [hbuyeq] at hp1
          cases res with
          | error e => simpa [hbuyeq] using hp1
          | ok r =>
            by_cases hs : r.success = true
            · simp only [hbuyeq, hs, if_true]
              exact hlog st2 _ "SUCCESS" hp1
            · simpa [hbuyeq, hs] using hp1
    · simp only [h1, h2, h3, h4, h5, if_true, if_false]
      exact hlog st _ "WARN" h
  · by_cases hd : d = true
    · simp only [h1, h2, h3, h4, hd, if_true, if_false]
      exact hlog st _ "DEBUG" h
    · simpa [h1, h2, h3, h4, hd] using h

theorem uniqueAddrs_applyOp (op : Op) (st : DBState) (h : uniqueAddrs st) :
    uniqueAddrs (applyOp st op) := by
  cases op with
  | opBuy oracle a s amt => exact uniqueAddrs_buy oracle st a s amt h
  | opSell oracle a amt => exact uniqueAddrs_sell oracle st a amt h
  | opAnalyze cfg oracle c d t =>
    exact analyze_fst_preserves uniqueAddrs (fun _ _ _ hh => hh)
      (fun oracle st a s amt hh => uniqueAddrs_buy oracle st a s amt hh)
      cfg oracle c d st t h
  | opMonitor oracle sl tp =>
    exact uniqueAddrs_foldl (updatePnLStep oracle sl tp)
      (fun st pos hh => uniqueAddrs_step oracle sl tp st pos hh) _ st h
  | opUpsertOpportunity o => exact h
  | opLog m l => exact h

theorem pairwise_addr_inj {l : List Position}
    (h : l.Pairwise (fun p q => p.token_address ≠ q.token_address)) :
    ∀ p q, p ∈ l → q ∈ l → p.token_address = q.token_address → p = q := by
  induction l with
  | nil =>
    intro p q hp
    exact absurd hp (List.not_mem_nil p)
  | cons x tl ih =>
    intro p q hp hq heq
    rcases List.mem_cons.mp hp with hpx | hp'
    · rcases List.mem_cons.mp hq with hqx | hq'
      · rw [hpx, hqx]
      · subst hpx
        exact absurd heq ((List.pairwise_cons.mp h).1 q hq')
    · rcases List.mem_cons.mp hq with hqx | hq'
      · subst hqx
        exact absurd heq.symm ((List.pairwise_cons.mp h).1 p hp')
      · exact ih (List.pairwise_cons.mp h).2 p q hp' hq' heq

/-- **C5.** Duplicate opens are rejected: (1) when an OPEN position for the
candidate's address already exists, `analyzeAndTrade` leaves positions,
trades and balance untouched (its guard checks OPEN positions before
buying); (2) a direct `executeVirtualBuy` against an existing row throws
on the UNIQUE constraint with the state unchanged; (3) pairwise-distinct
position addresses entail at most one OPEN position per token address, and
(4) that address-uniqueness is preserved by every sequence of the
program's operations — so at most one OPEN position per token ever
exists. -/
theorem c5_duplicate_open_rejected :
    (∀ (cfg : Config) (oracle : String → ℚ) (c : Nat) (d : Bool) (st : DBState)
        (token : TokenData),
      (∃ p ∈ st.positions, p.token_address = token.address ∧
        p.status = PosStatus.OPEN) →
      (analyzeAndTrade cfg oracle c d st token).1.positions = st.positions ∧
      (analyzeAndTrade cfg oracle c d st token).1.trades = st.trades ∧
      (analyzeAndTrade cfg oracle c d st token).1.balance = st.balance) ∧
    (∀ (oracle : String → ℚ) (st : DBState) (a s : String) (amt : ℚ)
        (p : Position),
      p ∈ st.positions → p.token_address = a →
      executeVirtualBuy oracle st a s amt =
        (st, Except.error "UNIQUE constraint failed: positions.token_address")) ∧
    (∀ st : DBState, uniqueAddrs st → atMostOneOpen st) ∧
    (∀ (ops : List Op) (st : DBState), uniqueAddrs st →
      uniqueAddrs (ops.foldl applyOp st)) := by
  refine ⟨?_, ?_, ?_, ?_⟩
  · intro cfg oracle c d st token hex
    have hopen : (findOpen st token.address).isSome = true := by
      rcases hex with ⟨p, hp, ha, hs⟩
      unfold findOpen
      rw [List.find?_isSome]
      exact ⟨p, hp, by simp [ha, hs]⟩
    unfold analyzeAndTrade
    by_cases h1 : token.liquidityUsd < cfg.minLiquidity
    · simp [h1]
    by_cases h2 : token.volume24h < cfg.minVolume
    · simp [h1, h2]
    by_cases h3 : safetyScore token < 80
    · simp [h1, h2, h3]
    by_cases h4 : cfg.autoBuyThreshold ≤ c
    · by_cases h5 : cfg.paperTrading = true
      · simp [h1, h2, h3, h4, h5, hopen]
      · simp [h1, h2, h3, h4, h5, insertLog]
    · by_cases hd : d = true
      · simp [h1, h2, h3, h4, hd, insertLog]
      · simp [h1, h2, h3, h4, hd]
  · intro oracle st a s amt p hp ha
    simp [executeVirtualBuy, hasPositionRow_true_of_mem hp ha]
  · intro st h p q hp hq _ _ heq
    exact pairwise_addr_inj h p q hp hq heq
  · intro ops
    induction ops with
    | nil => exact fun st h => h
    | cons op tl ih => exact fun st h => ih (applyOp st op) (uniqueAddrs_applyOp op st h)

/-- Witness for C5: with the OPEN "TOK" position in place, analyzing a
gate-passing "TOK" candidate at confidence 95 changes no positions, trades
or balance; a direct re-buy throws with the state unchanged; and
address-uniqueness holds and is preserved across an operation batch. -/
theorem c5_duplicate_open_rejected_witness :
    (analyzeAndTrade cfgD orOne 95 false stP tokT).1.positions = stP.positions ∧
    (analyzeAndTrade cfgD orOne 95 false stP tokT).1.trades = stP.trades ∧
    (analyzeAndTrade cfgD orOne 95 false stP tokT).1.balance = stP.balance ∧
    executeVirtualBuy orOne stP "TOK" "TOK" (1 / 10) =
      (stP, Except.error "UNIQUE constraint failed: positions.token_address") ∧
    atMostOneOpen stP ∧
    uniqueAddrs ([Op.opLog "tick" "INFO"].foldl applyOp stP) := by
  obtain ⟨h1, h2, h3⟩ := c5_duplicate_open_rejected.1 cfgD orOne 95 false stP tokT
    ⟨posP, by simp [stP], by simp [posP, tokT], by simp [posP]⟩
  refine ⟨h1, h2, h3, ?_, ?_, ?_⟩
  · exact c5_duplicate_open_rejected.2.1 orOne stP "TOK" "TOK" (1 / 10) posP
      (by simp [stP]) (by simp [posP])
  · exact c5_duplicate_open_rejected.2.2.1 stP (by simp [uniqueAddrs, stP])
  · exact c5_duplicate_open_rejected.2.2.2 [Op.opLog "tick" "INFO"] stP
      (by simp [uniqueAddrs, stP])
